import Mathlib

/-!
Shallow embedding of the VeilChain ledger engine (Python sources under src/)
and verification of the frozen specification claims.

Modelling conventions, applied uniformly:
of the primitive `sha256 : str -> str` (crypto.py) only determinism is ever
used by the code under verification, so it is embedded as an explicit
function parameter `H : String → String`; concrete instances in witness
and counterexample theorems use the injective stand-in `H00` defined below.
Python floats (amounts, fees, timestamps) are embedded as rationals `ℚ`;
the float values appearing in the claims (12.5, 0.001, 0.01, 1e-8, 7200)
are all exactly representable in binary floating point or only compared,
so rational arithmetic agrees with the source on every computation a claim
depends on.  Python `time.time()` readings become explicit `ℚ` arguments.
Python dicts and sets keep insertion order in the embedding: dicts become
association lists and sets become duplicate-free lists grown by
`setAdd` (membership-guarded append), so `len` is list length.
Unbounded `while` loops (Merkle level folding, proof-of-work search) are
embedded with an explicit fuel argument; the fuel chosen at each call site
dominates the number of iterations the source performs.
-/

/-- Transparent transaction record (transaction.py, TransparentTransaction). -/
structure TransparentTransaction where
  sender : String
  recipient : String
  amount : ℚ
  timestamp : ℚ
  signature : String := ""
deriving DecidableEq

/-- Shielded transaction public record (transaction.py, ShieldedTransaction).
The private fields are never read by the code under verification and are
omitted. -/
structure ShieldedTransaction where
  commitment : String
  nullifier : String
  proof : String
  timestamp : ℚ
deriving DecidableEq

/-- Tagged union of the two transaction shapes. -/
inductive Transaction where
  | transparent (t : TransparentTransaction)
  | shielded (t : ShieldedTransaction)
deriving DecidableEq

/-- Hash of a transparent transaction: sha256 of the concatenated field
rendering (transaction.py line 29). -/
def TransparentTransaction.calculate_hash (H : String → String) (t : TransparentTransaction) : String :=
  H (t.sender ++ t.recipient ++ toString t.amount ++ toString t.timestamp)

/-- Hash of a shielded transaction (transaction.py line 62). -/
def ShieldedTransaction.calculate_hash (H : String → String) (t : ShieldedTransaction) : String :=
  H (t.commitment ++ t.nullifier ++ t.proof ++ toString t.timestamp)

/-- Shared identity hash of the tagged union. -/
def Transaction.calculate_hash (H : String → String) : Transaction → String
  | .transparent t => t.calculate_hash H
  | .shielded t => t.calculate_hash H

/-- Structural stand-in zero-knowledge check (transaction.py line 88):
proof and commitment must be 64 characters long. -/
def ShieldedTransaction.verify_proof (t : ShieldedTransaction) : Bool :=
  t.proof.length == 64 && t.commitment.length == 64

/-- Node of the Merkle tree (merkle.py, MerkleNode): a leaf carries raw data,
an inner node two children. -/
inductive MerkleNode where
  | leaf (data : String)
  | node (left right : MerkleNode)
deriving DecidableEq

/-- Hash of a Merkle node (merkle.py line 16): an inner node hashes the
concatenation of the child hashes, a leaf hashes its data. -/
def MerkleNode.hash (H : String → String) : MerkleNode → String
  | .leaf d => H d
  | .node l r => H (l.hash H ++ r.hash H)

/-- One pass of the level-building loop (merkle.py lines 40-43): adjacent
nodes are paired; an odd trailing node is paired with itself. -/
def pairUp : List MerkleNode → List MerkleNode
  | [] => []
  | [x] => [.node x x]
  | x :: y :: rest => .node x y :: pairUp rest

theorem pairUp_length : ∀ l : List MerkleNode, (pairUp l).length = (l.length + 1) / 2
  | [] => by simp [pairUp]
  | [x] => by simp [pairUp]
  | x :: y :: rest => by
      simp [pairUp, pairUp_length rest]
      omega

/-- The `while len(nodes) > 1` loop of build_tree (merkle.py line 37),
with fuel; each iteration halves the level, so fuel `l.length` always
suffices. -/
def buildLevels : Nat → List MerkleNode → List MerkleNode
  | 0, l => l
  | fuel + 1, l =>
      match l with
      | [] => []
      | [x] => [x]
      | x :: y :: rest => buildLevels fuel (pairUp (x :: y :: rest))

/-- The Merkle tree object holds the ordered leaf data list
(merkle.py line 26). -/
structure MerkleTree where
  transactions : List String
deriving DecidableEq

/-- build_tree (merkle.py line 30): empty input gives no root; otherwise
fold levels down to a single node. -/
def MerkleTree.build_tree (txs : List String) : Option MerkleNode :=
  if txs = [] then none
  else
    match buildLevels txs.length (txs.map MerkleNode.leaf) with
    | [] => none
    | x :: _ => some x

/-- get_root_hash (merkle.py line 49): the root node hash, or the empty
string when there is no root. -/
def MerkleTree.get_root_hash (H : String → String) (t : MerkleTree) : String :=
  match MerkleTree.build_tree t.transactions with
  | some r => r.hash H
  | none => ""

/-- One element of a Merkle proof (merkle.py line 72): a sibling hash and
the side it sits on, rendered as the source strings "right" and "left". -/
structure ProofElem where
  hash : String
  position : String
deriving DecidableEq

/-- One pass of the proof-building loop body (merkle.py lines 66-78): the
pair cursor `i` advances by two, the tracked leaf `index` is replaced by
`i / 2` when the pair at `i` contains it, and the sibling on the matched
pair is recorded. -/
def proofPass (H : String → String) : List MerkleNode → Nat → Nat → List MerkleNode × List ProofElem × Nat
  | [], _, index => ([], [], index)
  | [x], i, index =>
      let pe : List ProofElem :=
        if i = index ∨ i + 1 = index then
          [⟨x.hash H, if i = index then "right" else "left"⟩]
        else []
      let index2 := if i = index ∨ i + 1 = index then i / 2 else index
      ([.node x x], pe, index2)
  | x :: y :: rest, i, index =>
      let pe : List ProofElem :=
        if i = index ∨ i + 1 = index then
          [⟨(if i = index then y else x).hash H, if i = index then "right" else "left"⟩]
        else []
      let index2 := if i = index ∨ i + 1 = index then i / 2 else index
      let r := proofPass H rest (i + 2) index2
      (.node x y :: r.1, pe ++ r.2.1, r.2.2)

/-- The outer `while len(nodes) > 1` loop of get_proof (merkle.py line 63),
with fuel; fuel `nodes.length` always suffices. -/
def proofLoop (H : String → String) : Nat → List MerkleNode → Nat → List ProofElem
  | 0, _, _ => []
  | _ + 1, [], _ => []
  | _ + 1, [_], _ => []
  | fuel + 1, x :: y :: rest, index =>
      let r := proofPass H (x :: y :: rest) 0 index
      r.2.1 ++ proofLoop H fuel r.1 r.2.2

/-- get_proof (merkle.py line 53): empty proof when the queried data is
absent, otherwise run the level loop starting from the first index of the
data. -/
def MerkleTree.get_proof (H : String → String) (t : MerkleTree) (transaction : String) : List ProofElem :=
  if transaction ∈ t.transactions then
    proofLoop H t.transactions.length (t.transactions.map MerkleNode.leaf) (t.transactions.indexOf transaction)
  else []

/-- verify_proof (merkle.py line 85): fold the proof from the given hash,
appending the sibling on the recorded side, and compare with the expected
root. -/
def MerkleTree.verify_proof (H : String → String) (transaction_hash : String) (proof : List ProofElem) (root_hash : String) : Bool :=
  (proof.foldl
    (fun current e => if e.position = "right" then H (current ++ e.hash) else H (e.hash ++ current))
    transaction_hash) == root_hash

/-- A block (block.py, Block dataclass), with the source default field
values. -/
structure Block where
  index : Nat
  timestamp : ℚ
  transactions : List Transaction
  previous_hash : String
  nonce : Nat := 0
  hash : String := ""
  difficulty : Nat := 2
  merkle_root : String := ""
  version : Nat := 1
deriving DecidableEq

/-- Block hash (block.py line 23): sha256 of the rendered header fields and
the concatenated transaction hashes.  The stored `hash` and `merkle_root`
fields are not part of the hashed string. -/
def Block.calculate_hash (H : String → String) (b : Block) : String :=
  let transactions_string := String.join (b.transactions.map (Transaction.calculate_hash H))
  H (toString b.index ++ toString b.timestamp ++ transactions_string ++ b.previous_hash
      ++ toString b.nonce ++ toString b.difficulty ++ toString b.version)

/-- Merkle root of a block (block.py line 29): the sentinel hash of the
constant "empty" when the batch is empty, otherwise the Merkle tree root
over the transaction hashes. -/
def Block.calculate_merkle_root (H : String → String) (b : Block) : String :=
  if b.transactions = [] then H "empty"
  else MerkleTree.get_root_hash H ⟨b.transactions.map (Transaction.calculate_hash H)⟩

/-- verify_merkle_root (block.py line 60). -/
def Block.verify_merkle_root (H : String → String) (b : Block) : Bool :=
  b.calculate_merkle_root H == b.merkle_root

/-- A string of `n` zero characters, the proof-of-work target
`'0' * difficulty`. -/
def zeros (n : Nat) : String :=
  String.mk (List.replicate n '0')

/-- Python string slicing `s[:n]`: the first `n` code points.  Python
strings are sequences of code points, exactly the `data` list of a Lean
`String`.  The source tests proof of work both as `hash[:difficulty] !=
target` (the mining loop) and as `hash.startswith('0' * difficulty)` (the
validators); since `'0' * difficulty` has exactly `difficulty` characters,
both are the comparison of this slice against the target. -/
def strTake (s : String) (n : Nat) : String :=
  String.mk (s.data.take n)

/-- The proof-of-work search loop of mine_block (block.py line 47), with
fuel: while the hash prefix misses the target, increment the nonce and
recompute the hash.  `none` models a search that has not terminated within
the fuel. -/
def Block.mine_loop (H : String → String) (target : String) (difficulty : Nat) : Nat → Block → Option Block
  | 0, b => if strTake b.hash difficulty == target then some b else none
  | fuel + 1, b =>
      if strTake b.hash difficulty == target then some b
      else
        let b1 : Block := { b with nonce := b.nonce + 1 }
        Block.mine_loop H target difficulty fuel { b1 with hash := b1.calculate_hash H }

/-- mine_block (block.py line 39): fix the difficulty and the Merkle root,
then run the proof-of-work search. -/
def Block.mine_block (H : String → String) (fuel : Nat) (b : Block) (difficulty : Nat) : Option Block :=
  let b1 : Block := { b with difficulty := difficulty }
  let b2 : Block := { b1 with merkle_root := b1.calculate_merkle_root H }
  Block.mine_loop H (zeros difficulty) difficulty fuel b2

/-- An unspent transaction output (utxo.py, UTXO dataclass). -/
structure UTXO where
  tx_id : String
  output_index : Nat
  address : String
  amount : ℚ
  is_shielded : Bool
deriving DecidableEq

/-- UTXO identifier (utxo.py line 19). -/
def UTXO.get_id (u : UTXO) : String :=
  u.tx_id ++ ":" ++ toString u.output_index

/-- The UTXO pool (utxo.py, UTXOPool): the live map is an insertion-ordered
association list, the spent set a duplicate-free list. -/
structure UTXOPool where
  utxos : List (String × UTXO) := []
  spent_utxos : List String := []
deriving DecidableEq

/-- add_utxo (utxo.py line 65): no-op when the identifier is already spent,
dict assignment otherwise (replace the value under an existing key, append
a fresh key). -/
def UTXOPool.add_utxo (p : UTXOPool) (utxo : UTXO) : UTXOPool :=
  let utxo_id := utxo.get_id
  if utxo_id ∈ p.spent_utxos then p
  else if p.utxos.any (fun kv => kv.1 == utxo_id) then
    { p with utxos := p.utxos.map (fun kv => if kv.1 == utxo_id then (kv.1, utxo) else kv) }
  else { p with utxos := p.utxos ++ [(utxo_id, utxo)] }

/-- spend_utxo (utxo.py line 71): remove from the live map and record into
the spent set, returning the removed UTXO, or return nothing. -/
def UTXOPool.spend_utxo (p : UTXOPool) (utxo_id : String) : Option UTXO × UTXOPool :=
  match p.utxos.find? (fun kv => kv.1 == utxo_id) with
  | some kv =>
      (some kv.2,
       { utxos := p.utxos.filter (fun e => !(e.1 == utxo_id)),
         spent_utxos := p.spent_utxos ++ [utxo_id] })
  | none => (none, p)

/-- get_utxos_for_address (utxo.py line 83). -/
def UTXOPool.get_utxos_for_address (p : UTXOPool) (address : String) : List UTXO :=
  (p.utxos.map Prod.snd).filter (fun u => u.address == address)

/-- get_balance (utxo.py line 87): the sum of the live UTXO amounts held by
the address. -/
def UTXOPool.get_balance (p : UTXOPool) (address : String) : ℚ :=
  ((p.get_utxos_for_address address).map UTXO.amount).sum

/-- get_total_utxos (utxo.py line 95). -/
def UTXOPool.get_total_utxos (p : UTXOPool) : Nat :=
  p.utxos.length

/-- calculate_priority (mempool.py line 13): fee times age.  The
transaction argument is unused by the source body and kept for shape. -/
def TransactionPriority.calculate_priority (_transaction : Transaction) (fee age : ℚ) : ℚ :=
  fee * age

/-- One mempool entry (the dict literal of mempool.py line 41). -/
structure MempoolEntry where
  transaction : Transaction
  hash : String
  timestamp : ℚ
  fee : ℚ
deriving DecidableEq

/-- The mempool (mempool.py, Mempool): an insertion-ordered entry list and
a fee map keyed by transaction hash. -/
structure Mempool where
  transactions : List MempoolEntry := []
  transaction_fees : List (String × ℚ) := []
deriving DecidableEq

/-- The `max_size` attribute fixed to 1000 in the constructor
(mempool.py line 26). -/
def Mempool.max_size : Nat := 1000

/-- Priority of a stored entry at selection time `now` (the sort key of
mempool.py line 62). -/
def Mempool.entry_priority (now : ℚ) (e : MempoolEntry) : ℚ :=
  TransactionPriority.calculate_priority e.transaction e.fee (now - e.timestamp)

/-- Python `min(..., key=priority)`: the first entry attaining the minimal
priority, found by keeping the current best and replacing it only on a
strictly smaller key. -/
def minByPriority (now : ℚ) : MempoolEntry → List MempoolEntry → MempoolEntry
  | best, [] => best
  | best, e :: rest =>
      if Mempool.entry_priority now e < Mempool.entry_priority now best then
        minByPriority now e rest
      else minByPriority now best rest

/-- remove_transaction (mempool.py line 51): drop every entry with the hash
and the fee-map key. -/
def Mempool.remove_transaction (m : Mempool) (tx_hash : String) : Mempool :=
  { transactions := m.transactions.filter (fun t => !(t.hash == tx_hash)),
    transaction_fees := m.transaction_fees.filter (fun kv => !(kv.1 == tx_hash)) }

/-- evict_lowest_priority (mempool.py line 72): remove the first entry of
minimal fee-times-age priority at the current time; no-op when empty. -/
def Mempool.evict_lowest_priority (m : Mempool) (now : ℚ) : Mempool :=
  match m.transactions with
  | [] => m
  | e :: rest => m.remove_transaction (minByPriority now e rest).hash

/-- Dict assignment `transaction_fees[tx_hash] = fee`
(mempool.py line 48). -/
def feesInsert (fees : List (String × ℚ)) (tx_hash : String) (fee : ℚ) : List (String × ℚ) :=
  if fees.any (fun kv => kv.1 == tx_hash) then
    fees.map (fun kv => if kv.1 == tx_hash then (kv.1, fee) else kv)
  else fees ++ [(tx_hash, fee)]

/-- add_transaction (mempool.py line 28): when at capacity, first evict the
lowest-priority entry; then reject if an entry with the same transaction
hash is present, otherwise append an entry stamped with the current time
and record the fee. -/
def Mempool.add_transaction (H : String → String) (m : Mempool) (transaction : Transaction) (fee now : ℚ) : Bool × Mempool :=
  let m1 := if m.transactions.length ≥ Mempool.max_size then m.evict_lowest_priority now else m
  let tx_hash := transaction.calculate_hash H
  if m1.transactions.any (fun t => t.hash == tx_hash) then (false, m1)
  else
    (true,
     { transactions := m1.transactions ++ [⟨transaction, tx_hash, now, fee⟩],
       transaction_fees := feesInsert m1.transaction_fees tx_hash fee })

/-- get_transactions_for_mining (mempool.py line 56): stable sort of the
entries by descending fee-times-age priority, truncate, and project the
transactions.  Python `sorted(..., reverse=True)` is a stable descending
sort; `List.insertionSort` with the non-strict key comparison realizes
exactly that order (an earlier entry precedes a later one of equal key). -/
def Mempool.get_transactions_for_mining (m : Mempool) (now : ℚ) (max_transactions : Nat) : List Transaction :=
  ((m.transactions.insertionSort
      (fun a b => Mempool.entry_priority now a ≥ Mempool.entry_priority now b)).take
    max_transactions).map MempoolEntry.transaction

/-- get_size (mempool.py line 89). -/
def Mempool.get_size (m : Mempool) : Nat :=
  m.transactions.length

/-- The privacy ledger (privacy.py, PrivacyLayer): nullifier and commitment
sets as duplicate-free insertion-ordered lists. -/
structure PrivacyLayer where
  nullifier_set : List String := []
  commitment_set : List String := []
deriving DecidableEq

/-- Python `set.add`: append when absent. -/
def setAdd (s : List String) (x : String) : List String :=
  if x ∈ s then s else s ++ [x]

/-- verify_shielded_transaction (privacy.py line 14): reject on nullifier
reuse, reject on a failing proof check, otherwise record nullifier and
commitment and accept. -/
def PrivacyLayer.verify_shielded_transaction (p : PrivacyLayer) (t : ShieldedTransaction) : Bool × PrivacyLayer :=
  if t.nullifier ∈ p.nullifier_set then (false, p)
  else if !t.verify_proof then (false, p)
  else
    (true,
     { nullifier_set := setAdd p.nullifier_set t.nullifier,
       commitment_set := setAdd p.commitment_set t.commitment })

/-- get_anonymity_set_size (privacy.py line 32). -/
def PrivacyLayer.get_anonymity_set_size (p : PrivacyLayer) : Nat :=
  p.commitment_set.length

/-- Consensus constants (consensus.py lines 12-21).  The initial reward
12.5 and the minimal reward 1e-8 are embedded as exact rationals. -/
def ConsensusRules.TARGET_BLOCK_TIME : ℚ := 150

def ConsensusRules.DIFFICULTY_ADJUSTMENT_INTERVAL : Nat := 20

def ConsensusRules.MAX_TRANSACTIONS_PER_BLOCK : Nat := 1000

def ConsensusRules.INITIAL_BLOCK_REWARD : ℚ := 25 / 2

def ConsensusRules.HALVING_INTERVAL : Nat := 840000

/-- calculate_difficulty (consensus.py line 24): below the adjustment
interval return 2; otherwise compare the elapsed time of the last 20
blocks against the expected 3000 seconds and retarget by one step. -/
def ConsensusRules.calculate_difficulty (chain : List Block) : Nat :=
  if chain.length < ConsensusRules.DIFFICULTY_ADJUSTMENT_INTERVAL then 2
  else
    match chain.drop (chain.length - ConsensusRules.DIFFICULTY_ADJUSTMENT_INTERVAL) with
    | [] => 2
    | h :: t =>
        let last := (h :: t).getLastD h
        let time_taken := last.timestamp - h.timestamp
        let expected_time := ConsensusRules.TARGET_BLOCK_TIME * ConsensusRules.DIFFICULTY_ADJUSTMENT_INTERVAL
        if time_taken < expected_time / 2 then last.difficulty + 1
        else if time_taken > expected_time * 2 then max 1 (last.difficulty - 1)
        else last.difficulty

/-- get_block_reward (consensus.py line 45): the initial reward halved per
840000 blocks, floored at the minimum reward. -/
def ConsensusRules.get_block_reward (block_height : Nat) : ℚ :=
  let halvings := block_height / ConsensusRules.HALVING_INTERVAL
  max (1 / 100000000) (ConsensusRules.INITIAL_BLOCK_REWARD / 2 ^ halvings)

/-- validate_block_size (consensus.py line 52).  The source measures
`sys.getsizeof(block)`, the byte size of the dataclass object itself
(which does not include the referenced transaction list contents); that is
a small constant far below MAX_BLOCK_SIZE = 2000000 for every block, so
the predicate is constantly true. -/
def ConsensusRules.validate_block_size (_block : Block) : Bool :=
  true

/-- validate_transaction_count (consensus.py line 58). -/
def ConsensusRules.validate_transaction_count (b : Block) : Bool :=
  b.transactions.length ≤ ConsensusRules.MAX_TRANSACTIONS_PER_BLOCK

/-- validate_block_time (consensus.py line 63): strictly after the previous
block and at most two hours past the current real time `now`. -/
def ConsensusRules.validate_block_time (now : ℚ) (b previous_block : Block) : Bool :=
  if b.timestamp ≤ previous_block.timestamp then false
  else if b.timestamp > now + 7200 then false
  else true

/-- Check run by the is_chain_valid loop body on one adjacent pair
(blockchain.py lines 186-202): hash recomputation, previous-hash linkage,
Merkle root, and proof of work. -/
def blockLinkOk (H : String → String) (previous_block current_block : Block) : Bool :=
  current_block.hash == current_block.calculate_hash H &&
  current_block.previous_hash == previous_block.hash &&
  current_block.verify_merkle_root H &&
  strTake current_block.hash current_block.difficulty == zeros current_block.difficulty

/-- The `for i in range(1, len(chain))` loop of is_chain_valid, carrying
the predecessor block. -/
def chainValidFrom (H : String → String) : Block → List Block → Bool
  | _, [] => true
  | prev, cur :: rest => blockLinkOk H prev cur && chainValidFrom H cur rest

/-- is_chain_valid (blockchain.py line 179) as a function of the block
list: every block from index 1 on passes `blockLinkOk` against its
predecessor; the block at index 0 is never examined on its own. -/
def chainValid (H : String → String) : List Block → Bool
  | [] => true
  | b :: rest => chainValidFrom H b rest

/-- The VeilChain aggregate state (blockchain.py, VeilChain attributes
that the core reads or writes; the network collaborator is out of
scope). -/
structure VeilChain where
  chain : List Block
  difficulty : Nat
  privacy_layer : PrivacyLayer := {}
  utxo_pool : UTXOPool := {}
  mempool : Mempool := {}
  orphaned_blocks : List Block := []
deriving DecidableEq

/-- The `max_reorg_depth` attribute fixed to 6 in the constructor
(blockchain.py line 33). -/
def VeilChain.max_reorg_depth : Nat := 6

/-- Fallback block for the partial list access `chain[-1]`; every reachable
state has a nonempty chain, so it is never returned in the verified
flows. -/
def dummyBlock : Block :=
  { index := 0, timestamp := 0, transactions := [], previous_hash := "" }

/-- Constructor plus create_genesis_block (blockchain.py lines 18-51):
genesis at index 0 with previous-hash sentinel "0", empty batch, Merkle
root and hash computed in place; `now` is the `time.time()` reading. -/
def VeilChain.init (H : String → String) (difficulty : Nat) (now : ℚ) : VeilChain :=
  let g0 : Block :=
    { index := 0, timestamp := now, transactions := [], previous_hash := "0",
      difficulty := difficulty, version := 1 }
  let g1 : Block := { g0 with merkle_root := g0.calculate_merkle_root H }
  let g2 : Block := { g1 with hash := g1.calculate_hash H }
  { chain := [g2], difficulty := difficulty }

/-- get_latest_block (blockchain.py line 53). -/
def VeilChain.get_latest_block (s : VeilChain) : Block :=
  s.chain.getLastD dummyBlock

/-- is_chain_valid as a method (blockchain.py line 179). -/
def VeilChain.is_chain_valid (H : String → String) (s : VeilChain) : Bool :=
  chainValid H s.chain

/-- validate_new_block (blockchain.py line 118), with `now` the
`time.time()` reading inside validate_block_time. -/
def VeilChain.validate_new_block (H : String → String) (now : ℚ) (s : VeilChain) (block : Block) : Bool :=
  block.hash == block.calculate_hash H &&
  block.previous_hash == s.get_latest_block.hash &&
  strTake block.hash block.difficulty == zeros block.difficulty &&
  block.verify_merkle_root H &&
  ConsensusRules.validate_block_size block &&
  ConsensusRules.validate_transaction_count block &&
  (if s.chain.length > 0 then ConsensusRules.validate_block_time now block s.get_latest_block else true)

/-- mine_pending_transactions (blockchain.py line 68).  The four
`time.time()` readings of the source path (inside the mempool selection,
the reward transaction, the block header, and the timestamp validation)
are the arguments `tSelect tReward tBlock tNow`; `fuel` bounds the
proof-of-work search, `none` meaning the search did not finish.  The
network broadcast is out of scope and has no effect on the state read
here. -/
def VeilChain.mine_pending_transactions (H : String → String) (fuel : Nat) (s : VeilChain)
    (mining_reward_address : String) (tSelect tReward tBlock tNow : ℚ) : Option VeilChain :=
  let transactions := s.mempool.get_transactions_for_mining tSelect 100
  let block_height := s.chain.length
  let block_reward := ConsensusRules.get_block_reward block_height
  let reward_tx : Transaction := .transparent
    { sender := "COINBASE", recipient := mining_reward_address,
      amount := block_reward, timestamp := tReward }
  let transactions := transactions ++ [reward_tx]
  let s1 : VeilChain :=
    if block_height > 0 ∧ block_height % ConsensusRules.DIFFICULTY_ADJUSTMENT_INTERVAL = 0 then
      { s with difficulty := ConsensusRules.calculate_difficulty s.chain }
    else s
  let new_block : Block :=
    { index := block_height, timestamp := tBlock, transactions := transactions,
      previous_hash := s1.get_latest_block.hash, difficulty := s1.difficulty, version := 1 }
  match new_block.mine_block H fuel s1.difficulty with
  | none => none
  | some mined =>
      if s1.validate_new_block H tNow mined then
        let s2 : VeilChain := { s1 with chain := s1.chain ++ [mined] }
        some { s2 with
               mempool := transactions.foldl
                 (fun mp tx => mp.remove_transaction (tx.calculate_hash H)) s2.mempool }
      else some s1

/-- handle_chain_reorganization (blockchain.py line 154): require a
strictly longer competing chain, validate it in full (the temporary
blockchain object of the source only carries the competing list into
is_chain_valid), bound the absolute value of `len(chain) -
len(competing)` by the maximum reorg depth, then extend the orphan list
with `chain[len(competing):]` and swap in the competing chain. -/
def VeilChain.handle_chain_reorganization (H : String → String) (s : VeilChain)
    (competing_chain : List Block) : Bool × VeilChain :=
  if competing_chain.length ≤ s.chain.length then (false, s)
  else if chainValid H competing_chain then
    let reorg_depth : ℤ := (s.chain.length : ℤ) - (competing_chain.length : ℤ)
    if reorg_depth.natAbs > VeilChain.max_reorg_depth then (false, s)
    else
      (true,
       { s with
         orphaned_blocks := s.orphaned_blocks ++ s.chain.drop competing_chain.length,
         chain := competing_chain })
  else (false, s)

/-- get_balance (blockchain.py line 206): delegates to the UTXO pool. -/
def VeilChain.get_balance (s : VeilChain) (address : String) : ℚ :=
  s.utxo_pool.get_balance address

/-- Injective concrete stand-in instantiating the abstract hash parameter
in the closed witness and counterexample theorems below: it prefixes two
zero characters, so it is injective and every output passes a difficulty-2
proof-of-work target. -/
def H00 : String → String :=
  fun s => "00" ++ s

/-- Prefix slicing of an `H00` hash: every `H00` output begins with the
two-zero prefix, so its length-two slice is exactly "00". -/
theorem strTake_H00_two (s : String) : strTake (H00 s) 2 = "00" := by
  simp [strTake, H00]

/-- Prefix slicing of an `H00` hash at difficulty one. -/
theorem strTake_H00_one (s : String) : strTake (H00 s) 1 = "0" := by
  simp [strTake, H00]

/-- The stand-in hash is injective, so no disagreement proved with it can
come from a hash collision. -/
theorem H00_injective : Function.Injective H00 := by
  intro a b h
  have hd := congrArg String.data h
  simp [H00] at hd
  cases a
  cases b
  exact congrArg String.mk hd

/-- The block hash does not read the stored `hash` field. -/
theorem calculate_hash_set_hash (H : String → String) (b : Block) (x : String) :
    Block.calculate_hash H { b with hash := x } = Block.calculate_hash H b := rfl

/-- The block hash does not read the stored `merkle_root` field. -/
theorem calculate_hash_set_merkle (H : String → String) (b : Block) (x : String) :
    Block.calculate_hash H { b with merkle_root := x } = Block.calculate_hash H b := rfl

/-- A block whose transaction list is empty, for the C2 witness. -/
def emptyBlock : Block :=
  { index := 0, timestamp := 0, transactions := [], previous_hash := "0" }

/-- A two-leaf Merkle tree over distinct leaves, for C3. -/
def treeAB : MerkleTree := ⟨["a", "b"]⟩

/-- C2 (corrected).  The sentinel hash of the constant "empty" is produced
by Block.calculate_merkle_root for an empty transaction batch; the Merkle
engine itself (MerkleTree.get_root_hash) returns the empty string on empty
input, not the sentinel. -/
theorem c2_empty_root_amended :
    (∀ (H : String → String) (b : Block), b.transactions = [] → b.calculate_merkle_root H = H "empty") ∧
    (∀ H : String → String, MerkleTree.get_root_hash H ⟨[]⟩ = "") := by
  constructor
  · intro H b hb
    simp [Block.calculate_merkle_root, hb]
  · intro H
    rfl

/-- C2 witness: the amended theorem applied to a concrete empty block. -/
theorem c2_empty_root_witness :
    Block.calculate_merkle_root H00 emptyBlock = H00 "empty" :=
  c2_empty_root_amended.1 H00 emptyBlock rfl

/-- C2 counterexample: on the empty leaf sequence the Merkle Engine's
build/get_root_hash returns the empty string, not the sentinel hash of
"empty" that the claim asserts. -/
theorem c2_empty_root_counterexample :
    ¬ (MerkleTree.get_root_hash H00 ⟨[]⟩ = H00 "empty") := by
  decide

/-- C3 (code_bug).  At the concrete two-leaf tree over distinct leaves
"a" and "b", the proof for the present leaf "a" is nonempty, yet
verify_proof on that honestly produced proof returns false — build_tree
hashes every leaf before pairing while verify_proof folds from the raw
leaf, so the claimed round trip fails; starting the fold from the hashed
leaf H("a") instead verifies.  The stand-in hash is injective
(H00_injective), so the failure is not a hash collision. -/
theorem c3_merkle_roundtrip_fails :
    treeAB.get_proof H00 "a" ≠ [] ∧
    MerkleTree.verify_proof H00 "a" (treeAB.get_proof H00 "a") (treeAB.get_root_hash H00) = false ∧
    MerkleTree.verify_proof H00 (H00 "a") (treeAB.get_proof H00 "a") (treeAB.get_root_hash H00) = true := by
  refine ⟨by decide, by decide, by decide⟩

/-- Block with empty batch, difficulty zero and in-place computed Merkle
root and hash, the building brick of the concrete chains below. -/
def mkSimpleBlock (idx : Nat) (ts : ℚ) (prev : String) : Block :=
  let b0 : Block :=
    { index := idx, timestamp := ts, transactions := [], previous_hash := prev,
      difficulty := 0, version := 1 }
  let b1 : Block := { b0 with merkle_root := b0.calculate_merkle_root H00 }
  { b1 with hash := b1.calculate_hash H00 }

/-- Genesis of the concrete reorganization scenario. -/
def g5 : Block := mkSimpleBlock 0 0 "0"

/-- The concrete block displaced by the reorganization of C5. -/
def b5 : Block := mkSimpleBlock 1 1 g5.hash

/-- First non-genesis block of the competing chain of C5. -/
def c5a : Block := mkSimpleBlock 1 2 g5.hash

/-- Second non-genesis block of the competing chain of C5. -/
def c5b : Block := mkSimpleBlock 2 3 c5a.hash

/-- The held two-block chain that the C5 reorganization displaces. -/
def cur5 : VeilChain := { chain := [g5, b5], difficulty := 2 }

/-- The valid three-block competing chain of C5. -/
def comp5 : List Block := [g5, c5a, c5b]

/-- C5 (code_bug).  A successful reorganization that displaces the held
block b5 (the competing chain does not contain it) leaves the
orphaned-blocks list empty: the source extends it with
chain[len(competing):], which is always empty because the competing chain
is strictly longer, so displaced blocks are discarded, contradicting the
claimed (and spec-stated) retention. -/
theorem c5_displaced_blocks_discarded :
    (VeilChain.handle_chain_reorganization H00 cur5 comp5).1 = true ∧
    (VeilChain.handle_chain_reorganization H00 cur5 comp5).2.chain = comp5 ∧
    b5 ∈ cur5.chain ∧
    b5 ∉ comp5 ∧
    (VeilChain.handle_chain_reorganization H00 cur5 comp5).2.orphaned_blocks = [] := by
  refine ⟨by decide, by decide, by decide, by decide, by decide⟩

/-- C6 (confirmed).  Reorganization bound and monotonicity: whenever the
competing chain is not strictly longer, or is longer by more than the
maximum reorg depth 6, handle_chain_reorganization returns false and the
state — in particular the held chain — is exactly unchanged, regardless of
whether the competing chain validates. -/
theorem c6_reorg_bound (H : String → String) (s : VeilChain) (competing : List Block)
    (h : competing.length ≤ s.chain.length ∨
         s.chain.length + VeilChain.max_reorg_depth < competing.length) :
    VeilChain.handle_chain_reorganization H s competing = (false, s) := by
  unfold VeilChain.handle_chain_reorganization
  rcases h with h1 | h2
  · rw [if_pos h1]
  · rw [if_neg (by omega)]
    by_cases hv : chainValid H competing = true
    · rw [if_pos hv, if_pos (by unfold VeilChain.max_reorg_depth at h2 ⊢; omega)]
    · rw [if_neg hv]

/-- C6 witness: a fresh one-block chain rejects the empty competing chain
(not strictly longer) and stays unchanged. -/
theorem c6_reorg_bound_witness :
    VeilChain.handle_chain_reorganization H00 cur5 [] = (false, cur5) :=
  c6_reorg_bound H00 cur5 [] (Or.inl (by decide))

/-- Membership is preserved by Python set insertion. -/
theorem mem_setAdd (s : List String) (x y : String) (h : x ∈ s) : x ∈ setAdd s y := by
  unfold setAdd
  split
  · exact h
  · exact List.mem_append_left _ h

/-- The inserted element is a member after Python set insertion. -/
theorem self_mem_setAdd (s : List String) (x : String) : x ∈ setAdd s x := by
  unfold setAdd
  split
  · assumption
  · exact List.mem_append_right _ (List.mem_singleton.mpr rfl)

/-- C7 (corrected).  For two shielded transactions with the same nullifier
whose first passes admission against a ledger that does not already hold
the first transaction's commitment, the first call accepts, the second is
rejected with the ledger unchanged, the commitment count (anonymity set
size) grows by exactly one over the two calls, and the nullifier set of
the starting ledger survives into the resulting ledger (it never
shrinks). -/
theorem c7_nullifier_double_spend_amended (p : PrivacyLayer) (t1 t2 : ShieldedTransaction)
    (hnull : t2.nullifier = t1.nullifier)
    (hfst : (p.verify_shielded_transaction t1).1 = true)
    (hcomm : t1.commitment ∉ p.commitment_set) :
    ((p.verify_shielded_transaction t1).2.verify_shielded_transaction t2).1 = false ∧
    ((p.verify_shielded_transaction t1).2.verify_shielded_transaction t2).2 =
      (p.verify_shielded_transaction t1).2 ∧
    (p.verify_shielded_transaction t1).2.get_anonymity_set_size =
      p.get_anonymity_set_size + 1 ∧
    ∀ x ∈ p.nullifier_set, x ∈ (p.verify_shielded_transaction t1).2.nullifier_set := by
  by_cases h1 : t1.nullifier ∈ p.nullifier_set
  · simp [PrivacyLayer.verify_shielded_transaction, h1] at hfst
  · by_cases h2 : t1.verify_proof = true
    · have hp1 : (p.verify_shielded_transaction t1).2 =
          { nullifier_set := setAdd p.nullifier_set t1.nullifier,
            commitment_set := setAdd p.commitment_set t1.commitment } := by
        simp [PrivacyLayer.verify_shielded_transaction, h1, h2]
      have hmem : t2.nullifier ∈ setAdd p.nullifier_set t1.nullifier := by
        rw [hnull]
        exact self_mem_setAdd _ _
      refine ⟨?_, ?_, ?_, ?_⟩
      · rw [hp1]
        simp [PrivacyLayer.verify_shielded_transaction, hmem]
      · rw [hp1]
        simp [PrivacyLayer.verify_shielded_transaction, hmem]
      · rw [hp1]
        simp [PrivacyLayer.get_anonymity_set_size, setAdd, hcomm]
      · intro x hx
        rw [hp1]
        exact mem_setAdd _ _ _ hx
    · simp [PrivacyLayer.verify_shielded_transaction, h1, h2] at hfst

/-- A 64-character commitment string for the concrete privacy scenarios. -/
def c64 : String := String.mk (List.replicate 64 'c')

/-- A second, distinct 64-character commitment string. -/
def d64 : String := String.mk (List.replicate 64 'd')

/-- A 64-character proof string for the concrete privacy scenarios. -/
def p64 : String := String.mk (List.replicate 64 'p')

/-- First shielded transaction of the concrete double-spend scenario. -/
def st1 : ShieldedTransaction :=
  { commitment := c64, nullifier := "n1", proof := p64, timestamp := 0 }

/-- Second shielded transaction, reusing the nullifier of the first. -/
def st2 : ShieldedTransaction :=
  { commitment := d64, nullifier := "n1", proof := p64, timestamp := 1 }

/-- C7 witness: the amended theorem applied to a fresh ledger and a
concrete same-nullifier pair. -/
theorem c7_nullifier_witness :
    (({} : PrivacyLayer).verify_shielded_transaction st1).2.verify_shielded_transaction st2 =
      (false, (({} : PrivacyLayer).verify_shielded_transaction st1).2) ∧
    (({} : PrivacyLayer).verify_shielded_transaction st1).2.get_anonymity_set_size =
      ({} : PrivacyLayer).get_anonymity_set_size + 1 := by
  have h := c7_nullifier_double_spend_amended {} st1 st2 rfl (by decide) (by decide)
  exact ⟨Prod.ext h.1 h.2.1, h.2.2.1⟩

/-- Ledger already holding the commitment of the incoming transaction, for
the C7 counterexample. -/
def pl0 : PrivacyLayer := { nullifier_set := [], commitment_set := [c64] }

/-- C7 counterexample: against a ledger already containing the first
transaction's commitment, the first same-nullifier transaction passes
admission and the second is rejected, yet the commitment count
(anonymity set size) does not grow at all — it stays 1 — contradicting the
claimed growth by exactly 1. -/
theorem c7_commitment_growth_counterexample :
    (pl0.verify_shielded_transaction st1).1 = true ∧
    ((pl0.verify_shielded_transaction st1).2.verify_shielded_transaction st2).1 = false ∧
    pl0.get_anonymity_set_size = 1 ∧
    ((pl0.verify_shielded_transaction st1).2.verify_shielded_transaction st2).2.get_anonymity_set_size = 1 := by
  refine ⟨by decide, by decide, by decide, by decide⟩

/-- The is_chain_valid loop, characterized by indexed adjacent-pair
checks: the fold from a head block succeeds exactly when every adjacent
pair of the headed list passes blockLinkOk. -/
theorem chainValidFrom_iff (H : String → String) :
    ∀ (rest : List Block) (prev : Block),
      chainValidFrom H prev rest = true ↔
      ∀ i, (h : i + 1 < (prev :: rest).length) →
        blockLinkOk H ((prev :: rest).get ⟨i, by omega⟩) ((prev :: rest).get ⟨i + 1, h⟩) = true
  | [], prev => by
      constructor
      · intro _ i h
        simp at h
      · intro _
        rfl
  | cur :: rest2, prev => by
      rw [show chainValidFrom H prev (cur :: rest2) =
            (blockLinkOk H prev cur && chainValidFrom H cur rest2) from rfl,
          Bool.and_eq_true]
      constructor
      · rintro ⟨hlink, hrec⟩ i h
        match i with
        | 0 => exact hlink
        | j + 1 =>
            exact (chainValidFrom_iff H rest2 cur).mp hrec j (by simp at h ⊢; omega)
      · intro hAll
        refine ⟨hAll 0 (by simp), ?_⟩
        refine (chainValidFrom_iff H rest2 cur).mpr ?_
        intro j h
        exact hAll (j + 1) (by simp at h ⊢; omega)

/-- C8 (corrected, amended part).  Every chain accepted by is_chain_valid
satisfies the previous-hash linkage at every index i > 0; the index
equality chain[i].index = i is not implied (see the counterexample). -/
theorem c8_linkage_amended (H : String → String) (chain : List Block)
    (hv : chainValid H chain = true) :
    ∀ i, 0 < i → (h2 : i < chain.length) →
      (chain.get ⟨i, h2⟩).previous_hash = (chain.get ⟨i - 1, by omega⟩).hash := by
  match chain with
  | [] =>
      intro i h1 h2
      simp at h2
  | b :: rest =>
      intro i h1 h2
      obtain ⟨j, rfl⟩ : ∃ j, i = j + 1 := ⟨i - 1, by omega⟩
      have hl := (chainValidFrom_iff H rest b).mp hv j (by simpa using h2)
      simp [blockLinkOk, Bool.and_eq_true, beq_iff_eq] at hl
      obtain ⟨⟨⟨hhash, hprev⟩, hmer⟩, hpow⟩ := hl
      simpa using hprev

/-- C8 witness: the amended linkage theorem applied to the concrete valid
two-block chain. -/
theorem c8_linkage_witness :
    chainValid H00 [g5, b5] = true ∧
    ([g5, b5].get ⟨1, by decide⟩).previous_hash = ([g5, b5].get ⟨0, by decide⟩).hash :=
  ⟨by decide, c8_linkage_amended H00 [g5, b5] (by decide) 1 (by decide) (by decide)⟩

/-- Non-genesis block carrying the wrong height 5 at position 1, for the
C8 counterexample. -/
def bBad : Block := mkSimpleBlock 5 1 g5.hash

/-- C8 counterexample: a chain accepted by is_chain_valid whose block at
position 1 stores index 5, refuting the claimed chain[i].index = i part —
the validator never checks the index field. -/
theorem c8_index_counterexample :
    chainValid H00 [g5, bBad] = true ∧
    ([g5, bBad].get ⟨1, by decide⟩).index = 5 ∧
    ¬ ([g5, bBad].get ⟨1, by decide⟩).index = 1 :=
  ⟨by decide, by decide, by decide⟩

/-- C10 (confirmed).  Full chain validation never examines the genesis
block itself: validity is exactly the conjunction of the four
adjacent-pair checks at indices i > 0 (no condition mentions index 0
alone), and replacing the genesis block by any block with the same stored
hash — arbitrary recomputed hash, difficulty, or other fields — leaves the
verdict unchanged: only genesis's stored hash is used, as the linkage
target of block 1. -/
theorem c10_genesis_unexamined (H : String → String) (chain : List Block) (g g2 : Block)
    (rest : List Block) (hsame : g2.hash = g.hash) :
    (chainValid H chain = true ↔
      ∀ i, 0 < i → (h2 : i < chain.length) →
        blockLinkOk H (chain.get ⟨i - 1, by omega⟩) (chain.get ⟨i, h2⟩) = true) ∧
    chainValid H (g2 :: rest) = chainValid H (g :: rest) := by
  constructor
  · match chain with
    | [] =>
        constructor
        · intro _ i h1 h2
          simp at h2
        · intro _
          rfl
    | b :: r =>
        rw [show chainValid H (b :: r) = chainValidFrom H b r from rfl,
            chainValidFrom_iff H r b]
        constructor
        · intro hAll i h1 h2
          obtain ⟨j, rfl⟩ : ∃ j, i = j + 1 := ⟨i - 1, by omega⟩
          simpa using hAll j (by simpa using h2)
        · intro hAll j h
          simpa using hAll (j + 1) (by omega) (by simpa using h)
  · match rest with
    | [] => rfl
    | c :: r2 =>
        show (blockLinkOk H g2 c && chainValidFrom H c r2) =
             (blockLinkOk H g c && chainValidFrom H c r2)
        unfold blockLinkOk
        rw [hsame]

/-- Genesis-position block sharing the stored hash of g5 but with junk in
every other field, for the C10 witness. -/
def gT : Block :=
  { index := 7, timestamp := 99, transactions := [], previous_hash := "junk",
    nonce := 3, hash := g5.hash, difficulty := 5, merkle_root := "bad", version := 2 }

/-- C10 witness: the theorem applied to the concrete valid chain and the
tampered genesis — the chain headed by the junk genesis (whose stored hash
differs from its recomputed hash and whose difficulty target its hash
misses) is still accepted. -/
theorem c10_genesis_unexamined_witness :
    chainValid H00 [gT, b5] = true ∧
    ¬ (gT.hash = Block.calculate_hash H00 gT) := by
  refine ⟨?_, by decide⟩
  rw [(c10_genesis_unexamined H00 [g5, b5] g5 gT [b5] rfl).2]
  decide

/-- Transparent transaction behind the low-fee mempool entry of the C9
scenarios. -/
def txA : Transaction :=
  .transparent { sender := "a", recipient := "x", amount := 1, timestamp := 0 }

/-- Transparent transaction behind the high-fee mempool entry of the C9
scenarios. -/
def txB : Transaction :=
  .transparent { sender := "b", recipient := "y", amount := 1, timestamp := 0 }

/-- Mempool with two entries admitted at the same time with fees 0.001 and
0.01 (spec scenario of C9). -/
def mFee : Mempool :=
  { transactions := [⟨txA, "ha", 0, 1/1000⟩, ⟨txB, "hb", 0, 1/100⟩],
    transaction_fees := [("ha", 1/1000), ("hb", 1/100)] }

/-- Mempool with two equal-fee entries, the first admitted earlier (spec
scenario of C9). -/
def mAge : Mempool :=
  { transactions := [⟨txA, "ha", 0, 1/100⟩, ⟨txB, "hb", 5, 1/100⟩],
    transaction_fees := [("ha", 1/100), ("hb", 1/100)] }

/-- C9 (confirmed).  Mempool priority selection: for any snapshot and
selection time the returned sequence is the transaction projection of a
priority-sorted permutation of the entries truncated to the limit (so at
most limit entries, in descending fee-times-age order); at the concrete
spec scenarios, selecting one of two same-time entries with fees 0.001 and
0.01 returns the 0.01 transaction, and selecting one of two equal-fee
entries returns the older one. -/
theorem c9_priority_selection :
    (∀ (m : Mempool) (now : ℚ) (limit : Nat),
       (m.get_transactions_for_mining now limit).length ≤ limit ∧
       ∃ es : List MempoolEntry, es.Perm m.transactions ∧
         es.Pairwise (fun a b => Mempool.entry_priority now a ≥ Mempool.entry_priority now b) ∧
         m.get_transactions_for_mining now limit = (es.take limit).map MempoolEntry.transaction) ∧
    mFee.get_transactions_for_mining 10 1 = [txB] ∧
    mAge.get_transactions_for_mining 10 1 = [txA] := by
  refine ⟨?_, ?_, ?_⟩
  · intro m now limit
    constructor
    · simp [Mempool.get_transactions_for_mining]
    · haveI ht : IsTotal MempoolEntry
          (fun a b => Mempool.entry_priority now a ≥ Mempool.entry_priority now b) :=
        ⟨fun a b => le_total (Mempool.entry_priority now b) (Mempool.entry_priority now a)⟩
      haveI hr : IsTrans MempoolEntry
          (fun a b => Mempool.entry_priority now a ≥ Mempool.entry_priority now b) :=
        ⟨fun _ _ _ hab hbc => le_trans hbc hab⟩
      exact ⟨_, List.perm_insertionSort _ _, List.sorted_insertionSort _ _, rfl⟩
  · show ((mFee.transactions.insertionSort _).take 1).map MempoolEntry.transaction = [txB]
    norm_num [mFee, List.insertionSort, List.orderedInsert,
      Mempool.entry_priority, TransactionPriority.calculate_priority]
  · show ((mAge.transactions.insertionSort _).take 1).map MempoolEntry.transaction = [txA]
    norm_num [mAge, List.insertionSort, List.orderedInsert,
      Mempool.entry_priority, TransactionPriority.calculate_priority]

/-- Python `min` with a key keeps the current best and replaces it only on
a strictly smaller key, so when nothing beats the initial best it is
returned. -/
theorem minByPriority_of_not_lt (now : ℚ) (best : MempoolEntry) :
    ∀ rest, (∀ e ∈ rest, ¬ Mempool.entry_priority now e < Mempool.entry_priority now best) →
      minByPriority now best rest = best
  | [], _ => rfl
  | e :: rest, h => by
      unfold minByPriority
      rw [if_neg (h e (List.mem_cons_self _ _))]
      exact minByPriority_of_not_lt now best rest (fun x hx => h x (List.mem_cons_of_mem _ hx))

/-- C4 (corrected, amended part).  Below capacity, a transaction whose
hash matches an existing entry is rejected and the mempool — entry list
and fee map — is left exactly unchanged.  (At capacity the eviction runs
before the duplicate check; see the counterexample.) -/
theorem c4_duplicate_rejection_amended (H : String → String) (m : Mempool) (tx : Transaction)
    (fee now : ℚ)
    (hcap : m.transactions.length < Mempool.max_size)
    (hdup : m.transactions.any (fun t => t.hash == tx.calculate_hash H) = true) :
    Mempool.add_transaction H m tx fee now = (false, m) := by
  have hc : ¬ m.transactions.length ≥ Mempool.max_size := by omega
  simp [Mempool.add_transaction, hc, hdup]

/-- The transaction duplicated in the C4 witness mempool. -/
def c4tx : Transaction :=
  .transparent { sender := "w", recipient := "w", amount := 1, timestamp := 0 }

/-- One-entry mempool already holding the hash of c4tx. -/
def c4m : Mempool :=
  { transactions := [⟨c4tx, Transaction.calculate_hash H00 c4tx, 0, 1/1000⟩],
    transaction_fees := [(Transaction.calculate_hash H00 c4tx, 1/1000)] }

/-- C4 witness: the amended theorem applied to the concrete one-entry
mempool and its duplicate. -/
theorem c4_duplicate_rejection_witness :
    Mempool.add_transaction H00 c4m c4tx (1/1000) 5 = (false, c4m) :=
  c4_duplicate_rejection_amended H00 c4m c4tx (1/1000) 5 (by decide) (by decide)

/-- Transaction shared by the 999 filler entries of the C4 counterexample
(only the stored entry hashes matter to add_transaction). -/
def c4FillerTx : Transaction :=
  .transparent { sender := "f", recipient := "f", amount := 1, timestamp := 0 }

/-- Filler entry number `i`: fee 1, admitted at time 0, stored hash
"h<i>". -/
def fillerEntry (i : Nat) : MempoolEntry :=
  { transaction := c4FillerTx, hash := "h" ++ toString i, timestamp := 0, fee := 1 }

/-- The transaction whose duplicate is submitted in the C4
counterexample. -/
def dupTx : Transaction :=
  .transparent { sender := "d", recipient := "d", amount := 2, timestamp := 0 }

/-- The entry already holding dupTx's hash, with fee 0 so that it is the
unique lowest-priority entry at selection time 1. -/
def dupEntry : MempoolEntry :=
  { transaction := dupTx, hash := Transaction.calculate_hash H00 dupTx, timestamp := 0, fee := 0 }

/-- A mempool exactly at capacity (1000 entries) whose head entry carries
the hash of dupTx. -/
def bigMempool : Mempool :=
  { transactions := dupEntry :: (List.range 999).map fillerEntry, transaction_fees := [] }

theorem fillerEntry_priority (i : Nat) : Mempool.entry_priority 1 (fillerEntry i) = 1 := by
  norm_num [Mempool.entry_priority, TransactionPriority.calculate_priority, fillerEntry]

theorem dupEntry_priority : Mempool.entry_priority 1 dupEntry = 0 := by
  norm_num [Mempool.entry_priority, TransactionPriority.calculate_priority, dupEntry]

/-- Filler hashes begin with the character h, hashes of the stand-in with
a zero, so no filler entry ever collides with a hash value. -/
theorem fillerEntry_hash_ne (i : Nat) (z : String) : (fillerEntry i).hash ≠ H00 z := by
  intro h
  have hd := congrArg String.data h
  simp [fillerEntry, H00] at hd

theorem evict_bigMempool :
    bigMempool.evict_lowest_priority 1 =
      { transactions := (List.range 999).map fillerEntry, transaction_fees := [] } := by
  have hmin : minByPriority 1 dupEntry ((List.range 999).map fillerEntry) = dupEntry := by
    apply minByPriority_of_not_lt
    intro e he
    obtain ⟨i, -, rfl⟩ := List.mem_map.mp he
    rw [fillerEntry_priority, dupEntry_priority]
    norm_num
  have h1 : bigMempool.evict_lowest_priority 1 =
      bigMempool.remove_transaction (minByPriority 1 dupEntry ((List.range 999).map fillerEntry)).hash := rfl
  rw [h1, hmin]
  simp only [Mempool.remove_transaction, Mempool.mk.injEq]
  constructor
  · rw [show bigMempool.transactions = dupEntry :: (List.range 999).map fillerEntry from rfl,
        List.filter_cons]
    simp only [beq_self_eq_true, Bool.not_true]
    rw [if_neg (by simp)]
    rw [List.filter_eq_self]
    intro e he
    obtain ⟨i, -, rfl⟩ := List.mem_map.mp he
    simp only [Bool.not_eq_true', beq_eq_false_iff_ne, ne_eq]
    exact fillerEntry_hash_ne i _
  · rfl

theorem bigMempool_post_evict_nodup :
    ((List.range 999).map fillerEntry).any (fun t => t.hash == Transaction.calculate_hash H00 dupTx) = false := by
  rw [List.any_eq_false]
  intro e he
  obtain ⟨i, -, rfl⟩ := List.mem_map.mp he
  simp only [beq_iff_eq]
  exact fillerEntry_hash_ne i _

/-- C4 counterexample: at capacity with the duplicate entry being the
unique lowest-priority one, add_transaction evicts it first and then
admits the incoming duplicate, returning true and changing both the entry
list and the fee map — refuting the claimed unconditional rejection and
state preservation. -/
theorem c4_duplicate_rejection_counterexample :
    bigMempool.transactions.length = Mempool.max_size ∧
    dupEntry ∈ bigMempool.transactions ∧
    dupEntry.hash = Transaction.calculate_hash H00 dupTx ∧
    (Mempool.add_transaction H00 bigMempool dupTx 1 1).1 = true ∧
    (Mempool.add_transaction H00 bigMempool dupTx 1 1).2.transaction_fees ≠
      bigMempool.transaction_fees := by
  have hlen : bigMempool.transactions.length = 1000 := by
    simp [bigMempool]
  have hadd : Mempool.add_transaction H00 bigMempool dupTx 1 1 =
      (true,
       { transactions := (List.range 999).map fillerEntry ++
           [⟨dupTx, Transaction.calculate_hash H00 dupTx, 1, 1⟩],
         transaction_fees := [(Transaction.calculate_hash H00 dupTx, 1)] }) := by
    unfold Mempool.add_transaction
    rw [if_pos (show bigMempool.transactions.length ≥ Mempool.max_size by rw [hlen]; decide)]
    rw [evict_bigMempool]
    rw [if_neg (by simp [bigMempool_post_evict_nodup])]
    simp [feesInsert]
  refine ⟨hlen, List.mem_cons_self _ _, rfl, by rw [hadd], ?_⟩
  rw [hadd]
  simp [bigMempool]

/-- When a block's hash already meets the target slice, the proof-of-work
loop returns it at any fuel. -/
theorem mine_loop_found (H : String → String) (target : String) (d : Nat) (fuel : Nat)
    (b : Block) (h : strTake b.hash d = target) :
    Block.mine_loop H target d fuel b = some b := by
  cases fuel <;> simp [Block.mine_loop, h]

/-- Fresh chain at difficulty 1 (the spec end-to-end scenario), genesis
created at time 0. -/
def chain0 : VeilChain := VeilChain.init H00 1 0

/-- The genesis of chain0, the tip at mining time. -/
def gen1 : Block := chain0.get_latest_block

/-- The coinbase transaction the mining path creates: block height 1, so
amount get_block_reward(1). -/
def rewardTx : Transaction :=
  .transparent { sender := "COINBASE", recipient := "miner",
                 amount := ConsensusRules.get_block_reward 1, timestamp := 1 }

/-- The candidate block before mining: empty mempool plus the coinbase. -/
def preBlock : Block :=
  { index := 1, timestamp := 1, transactions := [rewardTx],
    previous_hash := gen1.hash, difficulty := 1, version := 1 }

/-- The candidate block with its Merkle root fixed by mine_block. -/
def preBlockM : Block :=
  { preBlock with merkle_root := preBlock.calculate_merkle_root H00 }

/-- The block found by the proof-of-work search: one nonce increment, hash
recomputed. -/
def minedBlock : Block :=
  { preBlockM with nonce := 1, hash := Block.calculate_hash H00 { preBlockM with nonce := 1 } }

/-- The chain state after the successful mine: block appended, everything
else — in particular the UTXO pool — untouched. -/
def afterMine : VeilChain := { chain0 with chain := chain0.chain ++ [minedBlock] }

theorem minedBlock_pow : strTake minedBlock.hash 1 = zeros 1 :=
  strTake_H00_one _

theorem c1_validate : chain0.validate_new_block H00 2 minedBlock = true := by
  simp only [VeilChain.validate_new_block, Bool.and_eq_true]
  refine ⟨⟨⟨⟨⟨⟨?_, ?_⟩, ?_⟩, ?_⟩, ?_⟩, ?_⟩, ?_⟩
  · exact beq_iff_eq.mpr rfl
  · exact beq_iff_eq.mpr rfl
  · exact beq_iff_eq.mpr minedBlock_pow
  · exact beq_iff_eq.mpr rfl
  · rfl
  · decide
  · show (if (0 : Nat) < chain0.chain.length then
        ConsensusRules.validate_block_time 2 minedBlock chain0.get_latest_block else true) = true
    rw [if_pos (by decide)]
    show (if (1 : ℚ) ≤ 0 then false else if (1 : ℚ) > 2 + 7200 then false else true) = true
    rw [if_neg (by norm_num), if_neg (by norm_num)]

theorem c1_pipeline :
    VeilChain.mine_pending_transactions H00 2 chain0 "miner" 1 1 1 2 = some afterMine := by
  have h2 : VeilChain.mine_pending_transactions H00 2 chain0 "miner" 1 1 1 2 =
      (if chain0.validate_new_block H00 2 minedBlock then
        some { chain0 with
               chain := chain0.chain ++ [minedBlock],
               mempool := [rewardTx].foldl
                 (fun mp tx => mp.remove_transaction (tx.calculate_hash H00)) chain0.mempool }
      else some chain0) := rfl
  rw [h2, if_pos c1_validate]
  rfl

/-- C1 (code_bug).  End-to-end mining on a fresh difficulty-1 chain
succeeds and appends a block whose only transaction is the coinbase of
amount block_reward (12.5, equal at heights 0 and 1), yet the UTXO pool is
left untouched — no UTXO is ever created anywhere in the code — so
get_balance("miner") returns 0, not the reward the claim (and the spec
end-to-end scenario) requires. -/
theorem c1_mining_credits_no_utxo :
    VeilChain.mine_pending_transactions H00 2 chain0 "miner" 1 1 1 2 = some afterMine ∧
    afterMine.chain.length = 2 ∧
    afterMine.get_latest_block.transactions = [rewardTx] ∧
    ConsensusRules.get_block_reward 1 = 25 / 2 ∧
    ConsensusRules.get_block_reward 0 = 25 / 2 ∧
    afterMine.utxo_pool = chain0.utxo_pool ∧
    afterMine.get_balance "miner" = 0 ∧
    (25 / 2 : ℚ) ≠ 0 := by
  refine ⟨c1_pipeline, rfl, rfl, ?_, ?_, rfl, rfl, by norm_num⟩
  · norm_num [ConsensusRules.get_block_reward, ConsensusRules.INITIAL_BLOCK_REWARD,
      ConsensusRules.HALVING_INTERVAL]
  · norm_num [ConsensusRules.get_block_reward, ConsensusRules.INITIAL_BLOCK_REWARD,
      ConsensusRules.HALVING_INTERVAL]
